import Mathlib

/-!
Shallow embedding of the task-manager backend (src/backend/Task.js,
src/backend/TaskRepository.js, src/backend/TaskController.js,
src/backend/server.js) and proofs of the specification claims.

Modelling conventions:
- JavaScript strings are Lean `String`; `null`/absent string fields are
  `Option String` with `none` for `null`.
- The repository's mutable `this.tasks` array and `this.nextId` counter
  become an explicit `TaskRepository` record threaded through operations.
- `Date` parsing (`new Date(s).getTime()`) is abstracted as a total
  timestamp function `parse : String → Int`, universally quantified in
  the theorems that involve it.
- `Array.prototype.sort` (a stable comparison sort in ECMAScript) is
  modelled as a stable insertion sort `stableSort r` where
  `r a b = (comparator a b ≤ 0)`.
- JSON serialisation (`JSON.stringify` / `JSON.parse`) round-trips the
  plain records emitted by `Task.toJSON` faithfully, so persistence is
  modelled at the level of the list of stored records.
-/

namespace TaskManager

/-- Task model from src/backend/Task.js: id, title, description, deadline
(ISO string or null), priority and status strings. -/
structure Task where
  id : Nat
  title : String
  description : String
  deadline : Option String
  priority : String
  status : String
deriving Repr, DecidableEq

/-- Plain record written to tasks.json, as emitted by Task.toJSON: the
same six fields, always all present. -/
structure StoredTask where
  id : Nat
  title : String
  description : String
  deadline : Option String
  priority : String
  status : String
deriving Repr, DecidableEq

/-- Task.toJSON from src/backend/Task.js (lines 36-45): emits the six
fields unchanged. -/
def Task.toJSON (t : Task) : StoredTask :=
  { id := t.id, title := t.title, description := t.description,
    deadline := t.deadline, priority := t.priority, status := t.status }

/-- Task constructor applied to a stored record (new Task(obj) in
TaskRepository.load, line 41). Since Task.toJSON always emits every
field, none of the constructor defaults fire: each field is copied. -/
def Task.ofStored (s : StoredTask) : Task :=
  { id := s.id, title := s.title, description := s.description,
    deadline := s.deadline, priority := s.priority, status := s.status }

/-- Repository state from src/backend/TaskRepository.js: the tasks array
and the nextId counter. -/
structure TaskRepository where
  tasks : List Task
  nextId : Nat
deriving Repr, DecidableEq

/-- Initial state set in the TaskRepository constructor (lines 22-23):
empty array, nextId = 1. -/
def initRepository : TaskRepository :=
  { tasks := [], nextId := 1 }

/-- TaskRepository.save (lines 58-64): serialises the collection as the
array of Task.toJSON records. -/
def TaskRepository.save (repo : TaskRepository) : List StoredTask :=
  repo.tasks.map Task.toJSON

/-- TaskRepository.load (lines 36-51): the argument is the parsed content
of tasks.json, `none` when the file does not exist. When present, tasks
are rebuilt with the Task constructor and nextId is recomputed as
`reduce((acc, t) => Math.max(acc, t.id), 0) + 1`; when absent, the
constructor's initial state (empty, nextId = 1) is kept. -/
def TaskRepository.load (file : Option (List StoredTask)) : TaskRepository :=
  match file with
  | none => initRepository
  | some data =>
    let tasks := data.map Task.ofStored
    let maxId := tasks.foldl (fun acc t => max acc t.id) 0
    { tasks := tasks, nextId := maxId + 1 }

/-- Data object passed to TaskRepository.addTask by its call sites
(TaskController.createTask lines 52-57 and the POST /tasks route in
server.js lines 118-123): exactly title, description, deadline,
priority. -/
structure AddData where
  title : String
  description : String
  deadline : Option String
  priority : String
deriving Repr, DecidableEq

/-- TaskRepository.addTask (lines 106-110): builds
new Task({ id: this.nextId++, ...data, status: 'ToDo' }) — the status
spread comes last, so status is forced to ToDo — and pushes it onto the
array. Returns the new state and the created task. -/
def TaskRepository.addTask (repo : TaskRepository) (data : AddData) :
    TaskRepository × Task :=
  let task : Task :=
    { id := repo.nextId, title := data.title, description := data.description,
      deadline := data.deadline, priority := data.priority, status := "ToDo" }
  ({ tasks := repo.tasks ++ [task], nextId := repo.nextId + 1 }, task)

/-- Partial update object built field-by-field with `!== undefined`
checks in TaskController.updateTask (lines 67-72): `none` means the
field was absent from the request body and is not written into the
updates object. A present deadline may itself be null, hence the nested
Option. -/
structure TaskUpdates where
  title : Option String := none
  description : Option String := none
  deadline : Option (Option String) := none
  priority : Option String := none
  status : Option String := none
deriving Repr, DecidableEq

/-- The merge new Task({ ...existing, ...updates, id: existing.id }) in
TaskRepository.updateTask (line 123): fields present in updates win,
absent fields keep the existing value, id is pinned to the existing
id. -/
def applyUpdates (t : Task) (u : TaskUpdates) : Task :=
  { id := t.id,
    title := u.title.getD t.title,
    description := u.description.getD t.description,
    deadline := u.deadline.getD t.deadline,
    priority := u.priority.getD t.priority,
    status := u.status.getD t.status }

/-- TaskRepository.updateTask (lines 119-126): findIndex by id; if not
found return null (state untouched); otherwise replace the record at
that index with the merged record and return it. The inner `none` branch
is unreachable because findIdx? always returns an in-range index. -/
def TaskRepository.updateTask (repo : TaskRepository) (id : Nat)
    (u : TaskUpdates) : TaskRepository × Option Task :=
  match repo.tasks.findIdx? (fun t => t.id == id) with
  | none => (repo, none)
  | some i =>
    match repo.tasks[i]? with
    | none => (repo, none)
    | some existing =>
      let updated := applyUpdates existing u
      ({ repo with tasks := repo.tasks.set i updated }, some updated)

/-- TaskRepository.deleteTask (lines 134-139): findIndex by id; if not
found return false (state untouched); otherwise splice out exactly that
index and return true. -/
def TaskRepository.deleteTask (repo : TaskRepository) (id : Nat) :
    TaskRepository × Bool :=
  match repo.tasks.findIdx? (fun t => t.id == id) with
  | none => (repo, false)
  | some i => ({ repo with tasks := repo.tasks.eraseIdx i }, true)

/-- TaskRepository.markCompleted (lines 147-149): delegates to
updateTask with { status: 'Completed' }. -/
def TaskRepository.markCompleted (repo : TaskRepository) (id : Nat) :
    TaskRepository × Option Task :=
  repo.updateTask id { status := some "Completed" }

/-- JavaScript falsiness of a (possibly null) string value: null and the
empty string are falsy. Used by `!a.deadline` in the deadline comparator
and `deadline || null` in the controller. -/
def falsyStr (s : Option String) : Bool :=
  match s with
  | none => true
  | some v => v == ""

/-- Boolean ordering derived from the deadline comparator of
TaskRepository.getTasks (lines 87-91):
comparator(a,b) = !a.deadline ? 1 : !b.deadline ? -1 :
Date(a.deadline) - Date(b.deadline); `le a b` means comparator(a,b) ≤ 0,
with Date parsing abstracted by `parse`. -/
def deadlineLe (parse : String → Int) (a b : Task) : Bool :=
  match a.deadline with
  | none => false
  | some da =>
    if da == "" then false
    else
      match b.deadline with
      | none => true
      | some db =>
        if db == "" then true
        else parse da ≤ parse db

/-- Priority rank object { High: 0, Medium: 1, Low: 2 } from
TaskRepository.getTasks (line 93); lookup of any other key is undefined,
modelled as none. -/
def priorityRank (p : String) : Option Nat :=
  if p == "High" then some 0
  else if p == "Medium" then some 1
  else if p == "Low" then some 2
  else none

/-- Boolean ordering derived from the priority comparator
order[a.priority] - order[b.priority] (line 94): le means the comparator
is ≤ 0, and a NaN result (an undefined rank) sorts as "equal", i.e.
keeps order in a stable sort. -/
def priorityLe (a b : Task) : Bool :=
  match priorityRank a.priority, priorityRank b.priority with
  | some x, some y => x ≤ y
  | _, _ => true

/-- Stable insertion of an element into a list: the element goes in
front of the first position whose head it is `r`-le to. -/
def stableInsert (r : α → α → Bool) (a : α) : List α → List α
  | [] => [a]
  | b :: l => if r a b then a :: b :: l else b :: stableInsert r a l

/-- Stable comparison sort modelling Array.prototype.sort with a
comparator: `r a b` encodes comparator(a,b) ≤ 0. For a consistent
comparator this agrees with every stable sort, ECMAScript's included. -/
def stableSort (r : α → α → Bool) : List α → List α
  | [] => []
  | a :: l => stableInsert r a (stableSort r l)

/-- Query options of TaskRepository.getTasks: the sortBy and filter
query parameters, absent or arbitrary strings. -/
structure QueryOptions where
  sortBy : Option String := none
  filter : Option String := none

/-- Filter stage of TaskRepository.getTasks (lines 76-84): applied only
when the filter value is truthy, recognising exactly the three filter
names; any other truthy value falls through unchanged. -/
def applyTaskFilter (filter : Option String) (l : List Task) : List Task :=
  match filter with
  | none => l
  | some f =>
    if f == "" then l
    else if f == "completed" then l.filter (fun t => t.status == "Completed")
    else if f == "not-completed" then l.filter (fun t => !(t.status == "Completed"))
    else if f == "high-priority" then l.filter (fun t => t.priority == "High")
    else l

/-- Sort stage of TaskRepository.getTasks (lines 85-96): applied only
when sortBy is truthy and recognised. -/
def applyTaskSort (parse : String → Int) (sortBy : Option String)
    (l : List Task) : List Task :=
  match sortBy with
  | none => l
  | some s =>
    if s == "" then l
    else if s == "deadline" then stableSort (deadlineLe parse) l
    else if s == "priority" then stableSort priorityLe l
    else l

/-- TaskRepository.getTasks (lines 74-98): copies the array, filters,
then sorts. -/
def TaskRepository.getTasks (parse : String → Int) (repo : TaskRepository)
    (opts : QueryOptions) : List Task :=
  applyTaskSort parse opts.sortBy (applyTaskFilter opts.filter repo.tasks)

/-- JSON request body of POST /tasks as destructured by
TaskController.createTask (line 46): each field may be absent. A status
field may be present in the raw body but is not destructured, so it is
recorded here only to show it is ignored. -/
structure CreateBody where
  title : Option String := none
  description : Option String := none
  deadline : Option String := none
  priority : Option String := none
  status : Option String := none
deriving Repr, DecidableEq

/-- TaskController.createTask (lines 45-59): rejects a falsy title with
400 (modelled as `none`, repository untouched); otherwise normalises the
priority against the allow-list, defaults description to the empty
string and deadline to null (`deadline || null`, so an empty string also
becomes null), and delegates to addTask. -/
def TaskController.createTask (repo : TaskRepository) (body : CreateBody) :
    TaskRepository × Option Task :=
  if falsyStr body.title then (repo, none)
  else
    let allowed := body.priority == some "High" || body.priority == some "Medium"
      || body.priority == some "Low"
    let data : AddData :=
      { title := body.title.getD "",
        description := body.description.getD "",
        deadline := if falsyStr body.deadline then none else body.deadline,
        priority := if allowed then body.priority.getD "Low" else "Low" }
    let (r, t) := repo.addTask data
    (r, some t)

/-- JavaScript template interpolation of a nullable string: null prints
as the text null. -/
def renderNullable (s : Option String) : String :=
  match s with
  | none => "null"
  | some v => v

/-- Label-and-value line helpers for the export block. -/
def idLine (t : Task) : String := "ID: " ++ toString t.id

/-- Title line of an export block. -/
def titleLine (t : Task) : String := "Title: " ++ t.title

/-- Description line of an export block. -/
def descriptionLine (t : Task) : String := "Description: " ++ t.description

/-- Deadline line of an export block. -/
def deadlineLine (t : Task) : String := "Deadline: " ++ renderNullable t.deadline

/-- Priority line of an export block. -/
def priorityLine (t : Task) : String := "Priority: " ++ t.priority

/-- Status line of an export block. -/
def statusLine (t : Task) : String := "Status: " ++ t.status

/-- One block of the export text, the template literal of
TaskController.exportTasks (line 110): six labelled lines each ending in
a newline. -/
def taskBlock (t : Task) : String :=
  "ID: " ++ toString t.id ++ "\nTitle: " ++ t.title
    ++ "\nDescription: " ++ t.description
    ++ "\nDeadline: " ++ renderNullable t.deadline
    ++ "\nPriority: " ++ t.priority
    ++ "\nStatus: " ++ t.status ++ "\n"

/-- TaskController.exportTasks (lines 107-119): getTasks() with no
options, one block per task, blocks joined with a newline (each block
already ends in one, so consecutive blocks are separated by a blank
line). The date-parse parameter is passed through to getTasks but is
unused because no sort is requested. -/
def TaskController.exportTasks (parse : String → Int)
    (repo : TaskRepository) : String :=
  String.intercalate "\n" ((repo.getTasks parse {}).map taskBlock)

/-- Store operations for the id-assignment claims: creates (through the
controller, which validates) and deletes, plus a reload that models
persist() followed by a fresh initialize() from the same storage
location. -/
inductive StoreOp where
  | create (body : CreateBody)
  | delete (id : Nat)
  | reload
deriving Repr

/-- One step of the operation semantics, also accumulating the list of
every id ever assigned by a successful create. -/
def execOp (st : TaskRepository × List Nat) (op : StoreOp) :
    TaskRepository × List Nat :=
  match op with
  | .create body =>
    match TaskController.createTask st.1 body with
    | (r, some t) => (r, st.2 ++ [t.id])
    | (r, none) => (r, st.2)
  | .delete id => ((st.1.deleteTask id).1, st.2)
  | .reload => (TaskRepository.load (some st.1.save), st.2)

/-- Run a sequence of store operations from a fresh repository. -/
def execOps (ops : List StoreOp) : TaskRepository × List Nat :=
  ops.foldl execOp (initRepository, [])

/-- Core store invariant: the stored ids are pairwise distinct and every
stored id is below the next-id counter. -/
def InvCore (repo : TaskRepository) : Prop :=
  (repo.tasks.map Task.id).Nodup ∧ ∀ t ∈ repo.tasks, t.id < repo.nextId

/-- History invariant for a single store lifetime: the core invariant,
every id ever assigned is below the next-id counter, and every stored id
comes from the assigned history. -/
def InvHist (st : TaskRepository × List Nat) : Prop :=
  InvCore st.1 ∧ (∀ a ∈ st.2, a < st.1.nextId) ∧
    ∀ t ∈ st.1.tasks, t.id ∈ st.2

/-- Abstracted parsed timestamp of a task's deadline (0 for null; only
ever compared between tasks whose deadline is non-falsy). -/
def deadlineKey (parse : String → Int) (t : Task) : Int :=
  match t.deadline with
  | none => 0
  | some s => parse s

/-- Target ordering of a deadline-sorted output: a task with a falsy
(null or empty) deadline never precedes one with a real deadline, and
two tasks with real deadlines appear in non-decreasing order of their
parsed timestamps. -/
def deadlineOrdered (parse : String → Int) (a b : Task) : Prop :=
  (falsyStr a.deadline = true → falsyStr b.deadline = true) ∧
  (falsyStr a.deadline = false → falsyStr b.deadline = false →
    deadlineKey parse a ≤ deadlineKey parse b)

/-- Sample task used to instantiate the frame theorems. -/
def taskW : Task :=
  { id := 1, title := "t", description := "d",
    deadline := some "2025-01-02", priority := "High", status := "ToDo" }

/-- Sample one-task repository used to instantiate the frame theorems. -/
def repoW : TaskRepository :=
  { tasks := [taskW], nextId := 2 }

/-- Sample partial update touching only title and description. -/
def updW : TaskUpdates :=
  { title := some "x", description := some "y" }

/-- Sample add data used to instantiate the position theorem. -/
def dataW : AddData :=
  { title := "u", description := "", deadline := none, priority := "Low" }

/-- Folding max over a list bounds every element and the seed. -/
theorem foldl_max_bounds (l : List Nat) :
    ∀ init : Nat, (∀ a ∈ l, a ≤ l.foldl max init) ∧ init ≤ l.foldl max init := by
  induction l with
  | nil => intro init; simp
  | cons b l ih =>
    intro init
    constructor
    · intro a ha
      rcases List.mem_cons.mp ha with rfl | ha
      · calc a ≤ max init a := le_max_right _ _
          _ ≤ l.foldl max (max init a) := (ih _).2
      · simpa using (ih (max init b)).1 a ha
    · calc init ≤ max init b := le_max_left _ _
        _ ≤ l.foldl max (max init b) := (ih _).2

/-- Reloading a saved repository reproduces exactly the same task list:
Task.ofStored undoes Task.toJSON field by field. -/
theorem load_save_tasks (repo : TaskRepository) :
    (TaskRepository.load (some repo.save)).tasks = repo.tasks := by
  simp [TaskRepository.load, TaskRepository.save, List.map_map]
  have : (Task.ofStored ∘ Task.toJSON) = id := by
    funext t
    simp [Task.ofStored, Task.toJSON]
  simp [this]

/-- Loading a stored collection sets the counter to the maximum stored id
plus one. -/
theorem load_some_nextId (data : List StoredTask) :
    (TaskRepository.load (some data)).nextId
      = ((data.map Task.ofStored).map Task.id).foldl max 0 + 1 := by
  simp [TaskRepository.load, List.foldl_map]

/-- After save and reload the counter is the maximum live id plus one. -/
theorem load_save_nextId (repo : TaskRepository) :
    (TaskRepository.load (some repo.save)).nextId
      = (repo.tasks.map Task.id).foldl max 0 + 1 := by
  rw [load_some_nextId]
  have h := load_save_tasks repo
  simp only [TaskRepository.load] at h
  rw [h]

/-- The controller's create either rejects leaving the state untouched,
or performs an addTask with some data object. -/
theorem createTask_cases (repo : TaskRepository) (body : CreateBody) :
    TaskController.createTask repo body = (repo, none) ∨
    ∃ data : AddData, TaskController.createTask repo body =
      ((repo.addTask data).1, some (repo.addTask data).2) := by
  by_cases hf : falsyStr body.title = true
  · left; simp [TaskController.createTask, hf]
  · right
    refine ⟨{ title := body.title.getD "",
              description := body.description.getD "",
              deadline := if falsyStr body.deadline then none else body.deadline,
              priority := if (body.priority == some "High"
                  || body.priority == some "Medium"
                  || body.priority == some "Low") = true
                then body.priority.getD "Low" else "Low" }, ?_⟩
    simp [TaskController.createTask, hf]

/-- The new state of addTask bumps the counter by one. -/
theorem addTask_fst_nextId (repo : TaskRepository) (data : AddData) :
    (repo.addTask data).1.nextId = repo.nextId + 1 := rfl

/-- The task created by addTask carries the old counter as its id. -/
theorem addTask_snd_id (repo : TaskRepository) (data : AddData) :
    (repo.addTask data).2.id = repo.nextId := rfl

/-- addTask preserves the core invariant. -/
theorem invCore_addTask (repo : TaskRepository) (data : AddData)
    (h : InvCore repo) : InvCore (repo.addTask data).1 := by
  obtain ⟨hnd, hlt⟩ := h
  constructor
  · simp only [TaskRepository.addTask, List.map_append, List.map_cons,
      List.map_nil]
    rw [List.nodup_append]
    refine ⟨hnd, by simp, ?_⟩
    intro x hx
    simp only [List.mem_map] at hx
    obtain ⟨t, ht, rfl⟩ := hx
    have := hlt t ht
    simp only [List.mem_singleton]
    omega
  · intro t ht
    simp only [TaskRepository.addTask, List.mem_append,
      List.mem_singleton] at ht
    rcases ht with ht | rfl
    · have := hlt t ht
      simp only [TaskRepository.addTask]
      omega
    · simp [TaskRepository.addTask]

/-- Every store operation, reload included, preserves the core
invariant. -/
theorem invCore_execOp (st : TaskRepository × List Nat) (op : StoreOp)
    (h : InvCore st.1) : InvCore (execOp st op).1 := by
  match op with
  | .create body =>
    rcases createTask_cases st.1 body with hc | ⟨data, hc⟩
    · simpa [execOp, hc] using h
    · simpa [execOp, hc] using invCore_addTask st.1 data h
  | .delete id =>
    obtain ⟨hnd, hlt⟩ := h
    rcases hfind : st.1.tasks.findIdx? (fun t => t.id == id) with _ | i
    · simpa [execOp, TaskRepository.deleteTask, hfind] using ⟨hnd, hlt⟩
    · simp only [execOp, TaskRepository.deleteTask, hfind]
      constructor
      · exact List.Nodup.sublist ((List.eraseIdx_sublist _ i).map Task.id) hnd
      · intro t ht
        exact hlt t (List.eraseIdx_subset _ i ht)
  | .reload =>
    obtain ⟨hnd, hlt⟩ := h
    simp only [execOp]
    constructor
    · rw [load_save_tasks]
      exact hnd
    · intro t ht
      rw [load_save_tasks] at ht
      rw [load_save_nextId]
      have := (foldl_max_bounds (st.1.tasks.map Task.id) 0).1 t.id
        (List.mem_map_of_mem Task.id ht)
      omega

/-- Creates and deletes preserve the history invariant. -/
theorem invHist_execOp (st : TaskRepository × List Nat) (op : StoreOp)
    (hop : op ≠ StoreOp.reload) (h : InvHist st) : InvHist (execOp st op) := by
  obtain ⟨hcore, hassigned, hfrom⟩ := h
  refine ⟨invCore_execOp st op hcore, ?_, ?_⟩
  · match op with
    | .create body =>
      rcases createTask_cases st.1 body with hc | ⟨data, hc⟩
      · simpa [execOp, hc] using hassigned
      · simp only [execOp, hc]
        intro a ha
        rw [addTask_fst_nextId]
        rcases List.mem_append.mp ha with ha | ha
        · have := hassigned a ha
          omega
        · simp only [List.mem_singleton] at ha
          subst ha
          rw [addTask_snd_id]
          omega
    | .delete id =>
      intro a ha
      rcases hfind : st.1.tasks.findIdx? (fun t => t.id == id) with _ | i <;>
        simpa [execOp, TaskRepository.deleteTask, hfind] using hassigned a ha
  · match op with
    | .create body =>
      rcases createTask_cases st.1 body with hc | ⟨data, hc⟩
      · simpa [execOp, hc] using hfrom
      · simp only [execOp, hc]
        intro t ht
        simp only [TaskRepository.addTask, List.mem_append,
          List.mem_singleton] at ht
        rcases ht with ht | rfl
        · exact List.mem_append_left _ (hfrom t ht)
        · exact List.mem_append_right _ (by simp [TaskRepository.addTask])
    | .delete id =>
      intro t ht
      rcases hfind : st.1.tasks.findIdx? (fun t => t.id == id) with _ | i
      · simp only [execOp, TaskRepository.deleteTask, hfind] at ht ⊢
        exact hfrom t ht
      · simp only [execOp, TaskRepository.deleteTask, hfind] at ht ⊢
        exact hfrom t (List.eraseIdx_subset _ i ht)

/-- The core invariant holds after any sequence of operations. -/
theorem invCore_foldl (ops : List StoreOp) :
    ∀ st : TaskRepository × List Nat, InvCore st.1 →
      InvCore (ops.foldl execOp st).1 := by
  induction ops with
  | nil => intro st h; exact h
  | cons op ops ih =>
    intro st h
    exact ih (execOp st op) (invCore_execOp st op h)

/-- The history invariant holds after any reload-free sequence. -/
theorem invHist_foldl (ops : List StoreOp)
    (hops : ∀ op ∈ ops, op ≠ StoreOp.reload) :
    ∀ st : TaskRepository × List Nat, InvHist st →
      InvHist (ops.foldl execOp st) := by
  induction ops with
  | nil => intro st h; exact h
  | cons op ops ih =>
    intro st h
    exact ih (fun o ho => hops o (List.mem_cons_of_mem _ ho)) (execOp st op)
      (invHist_execOp st op (hops op (List.mem_cons_self op ops)) h)

/-- The fresh repository satisfies the history invariant. -/
theorem invHist_init : InvHist (initRepository, []) := by
  refine ⟨⟨by simp [initRepository], ?_⟩, ?_, ?_⟩ <;>
    simp [initRepository]

/-- Inserting into a list permutes consing onto it. -/
theorem stableInsert_perm (r : α → α → Bool) (a : α) (l : List α) :
    (stableInsert r a l).Perm (a :: l) := by
  induction l with
  | nil => simp [stableInsert]
  | cons b l ih =>
    by_cases h : r a b = true
    · simp [stableInsert, h]
    · simp only [stableInsert, h]
      exact (ih.cons b).trans (List.Perm.swap a b l)

/-- The stable sort permutes its input. -/
theorem stableSort_perm (r : α → α → Bool) (l : List α) :
    (stableSort r l).Perm l := by
  induction l with
  | nil => simp [stableSort]
  | cons a l ih =>
    exact (stableInsert_perm r a (stableSort r l)).trans (ih.cons a)

/-- Membership in an insertion. -/
theorem mem_stableInsert (r : α → α → Bool) (a x : α) (l : List α) :
    x ∈ stableInsert r a l ↔ x = a ∨ x ∈ l := by
  rw [(stableInsert_perm r a l).mem_iff]
  simp

/-- Insertion preserves pairwise order for a transitive relation R that
the boolean comparator decides in both directions. -/
theorem pairwise_stableInsert (r : α → α → Bool) (R : α → α → Prop)
    (hT : Transitive R)
    (h1 : ∀ a b, r a b = true → R a b)
    (h2 : ∀ a b, r a b = false → R b a)
    (a : α) (l : List α) (hl : l.Pairwise R) :
    (stableInsert r a l).Pairwise R := by
  induction l with
  | nil => simp [stableInsert]
  | cons b l ih =>
    rcases List.pairwise_cons.mp hl with ⟨hb, hl'⟩
    by_cases h : r a b = true
    · simp only [stableInsert, h, if_pos]
      rw [List.pairwise_cons]
      refine ⟨?_, hl⟩
      intro x hx
      rcases List.mem_cons.mp hx with rfl | hx
      · exact h1 a x h
      · exact hT (h1 a b h) (hb x hx)
    · simp only [stableInsert, h]
      rw [if_neg (by simp [h]), List.pairwise_cons]
      refine ⟨?_, ih hl'⟩
      intro x hx
      rcases (mem_stableInsert r a x l).mp hx with rfl | hx
      · exact h2 x b (by simpa using h)
      · exact hb x hx

/-- The stable sort is pairwise ordered by any such relation R. -/
theorem pairwise_stableSort (r : α → α → Bool) (R : α → α → Prop)
    (hT : Transitive R)
    (h1 : ∀ a b, r a b = true → R a b)
    (h2 : ∀ a b, r a b = false → R b a)
    (l : List α) : (stableSort r l).Pairwise R := by
  induction l with
  | nil => simp [stableSort]
  | cons a l ih =>
    exact pairwise_stableInsert r R hT h1 h2 a (stableSort r l) ih

/-- Requesting the deadline sort runs the stable sort under the deadline
comparator. -/
theorem applyTaskSort_deadline (parse : String → Int) (l : List Task) :
    applyTaskSort parse (some "deadline") l = stableSort (deadlineLe parse) l := by
  rfl

/-- The deadline target ordering is transitive. -/
theorem deadlineOrdered_trans (parse : String → Int) :
    Transitive (deadlineOrdered parse) := by
  intro a b c hab hbc
  refine ⟨fun ha => hbc.1 (hab.1 ha), ?_⟩
  intro ha hc
  rcases hb : falsyStr b.deadline with _ | _
  · exact le_trans (hab.2 ha hb) (hbc.2 hb hc)
  · have := hbc.1 hb
    rw [hc] at this
    cases this

/-- A true comparator verdict entails the deadline target ordering. -/
theorem deadlineLe_true (parse : String → Int) (a b : Task)
    (h : deadlineLe parse a b = true) : deadlineOrdered parse a b := by
  rcases ha : a.deadline with _ | da
  · simp [deadlineLe, ha] at h
  · by_cases hda : da = ""
    · simp [deadlineLe, ha, hda] at h
    · constructor
      · intro hfa
        simp [falsyStr, ha, hda] at hfa
      · intro hfa hfb
        rcases hb : b.deadline with _ | db
        · simp [falsyStr, hb] at hfb
        · by_cases hdb : db = ""
          · simp [falsyStr, hb, hdb] at hfb
          · simp only [deadlineLe, ha, hb] at h
            rw [if_neg (by simp [hda]), if_neg (by simp [hdb])] at h
            simp only [deadlineKey, ha, hb]
            exact of_decide_eq_true h

/-- A false comparator verdict entails the reversed target ordering. -/
theorem deadlineLe_false (parse : String → Int) (a b : Task)
    (h : deadlineLe parse a b = false) : deadlineOrdered parse b a := by
  rcases ha : a.deadline with _ | da
  · refine ⟨fun _ => by simp [falsyStr, ha], ?_⟩
    intro hfb hfa
    simp [falsyStr, ha] at hfa
  · by_cases hda : da = ""
    · refine ⟨fun _ => by simp [falsyStr, ha, hda], ?_⟩
      intro hfb hfa
      simp [falsyStr, ha, hda] at hfa
    · rcases hb : b.deadline with _ | db
      · simp only [deadlineLe, ha, hb] at h
        rw [if_neg (by simp [hda])] at h
        cases h
      · by_cases hdb : db = ""
        · simp [deadlineLe, ha, hb, hda, hdb] at h
        · constructor
          · intro hfb
            simp [falsyStr, hb, hdb] at hfb
          · intro hfb hfa
            simp only [deadlineLe, ha, hb] at h
            rw [if_neg (by simp [hda]), if_neg (by simp [hdb])] at h
            simp only [deadlineKey, ha, hb]
            have := of_decide_eq_false h
            omega

/-- Listing with no options returns the collection itself, in store
order. -/
theorem getTasks_default (parse : String → Int) (repo : TaskRepository) :
    repo.getTasks parse {} = repo.tasks := rfl

/-- An export block equals its six labelled lines joined by newlines,
with a terminating newline. -/
theorem block_lines (t : Task) : taskBlock t
    = String.intercalate "\n" [idLine t, titleLine t, descriptionLine t,
        deadlineLine t, priorityLine t, statusLine t] ++ "\n" := by
  have h1 : ("\nTitle: " : String) = "\n" ++ "Title: " := by decide
  have h2 : ("\nDescription: " : String) = "\n" ++ "Description: " := by decide
  have h3 : ("\nDeadline: " : String) = "\n" ++ "Deadline: " := by decide
  have h4 : ("\nPriority: " : String) = "\n" ++ "Priority: " := by decide
  have h5 : ("\nStatus: " : String) = "\n" ++ "Status: " := by decide
  simp only [taskBlock, h1, h2, h3, h4, h5, String.intercalate,
    String.intercalate.go, idLine, titleLine, descriptionLine, deadlineLine,
    priorityLine, statusLine, String.append_assoc]

/-- C1 counterexample: the claim that a deleted task's id is never
assigned again fails across a persist followed by a fresh initialize.
After create, create, delete(2), the ids [1, 2] have been assigned and
id 2 successfully deleted; reloading from the saved collection recomputes
the counter as max(existing ids) + 1 = 2, so the next create assigns the
deleted id 2 again — which is also not strictly greater than every
previously assigned id. -/
theorem C1_counterexample :
    (execOps [StoreOp.create { title := some "a" },
        StoreOp.create { title := some "b" }]).2 = [1, 2] ∧
    ((execOps [StoreOp.create { title := some "a" },
        StoreOp.create { title := some "b" }]).1.deleteTask 2).2 = true ∧
    ((TaskController.createTask
        (TaskRepository.load (some
          ((execOps [StoreOp.create { title := some "a" },
            StoreOp.create { title := some "b" }]).1.deleteTask 2).1.save))
        { title := some "c" }).2.map Task.id) = some 2 := by
  refine ⟨by decide, by decide, by decide⟩

/-- C1 (amended): after any sequence of creates and deletes the stored
ids are pairwise distinct and all below the next-id counter; within a
single store lifetime (no reload) every id ever assigned stays below the
counter, stored ids come from the assigned history, and the next
successful create assigns an id strictly greater than every previously
assigned id — in particular never a previously assigned (hence never a
deleted) one. On load the counter is set to max(existing ids) + 1, which
is 1 for an empty or absent collection. -/
theorem C1_id_assignment (ops : List StoreOp) :
    ((execOps ops).1.tasks.map Task.id).Nodup ∧
    (∀ t ∈ (execOps ops).1.tasks, t.id < (execOps ops).1.nextId) ∧
    ((∀ op ∈ ops, op ≠ StoreOp.reload) →
      (∀ a ∈ (execOps ops).2, a < (execOps ops).1.nextId) ∧
      (∀ t ∈ (execOps ops).1.tasks, t.id ∈ (execOps ops).2) ∧
      (∀ body r t,
        TaskController.createTask (execOps ops).1 body = (r, some t) →
        (∀ a ∈ (execOps ops).2, a < t.id) ∧ t.id ∉ (execOps ops).2)) ∧
    (∀ data, (TaskRepository.load (some data)).nextId
        = ((data.map Task.ofStored).map Task.id).foldl max 0 + 1) ∧
    (TaskRepository.load (some [])).nextId = 1 ∧
    (TaskRepository.load none).nextId = 1 := by
  have hcore : InvCore (execOps ops).1 :=
    invCore_foldl ops (initRepository, []) invHist_init.1
  refine ⟨hcore.1, hcore.2, ?_, load_some_nextId, by simp [TaskRepository.load],
    by simp [TaskRepository.load, initRepository]⟩
  intro hops
  have hh : InvHist (execOps ops) := invHist_foldl ops hops _ invHist_init
  refine ⟨hh.2.1, hh.2.2, ?_⟩
  intro body r t hc
  rcases createTask_cases (execOps ops).1 body with h | ⟨data, h⟩
  · rw [h] at hc
    simp at hc
  · rw [h] at hc
    have ht : t = (TaskRepository.addTask (execOps ops).1 data).2 := by
      have := congrArg Prod.snd hc
      simpa using this.symm
    subst ht
    rw [addTask_snd_id]
    constructor
    · exact hh.2.1
    · intro hmem
      exact absurd rfl (Nat.ne_of_lt (hh.2.1 _ hmem))

/-- C1 witness: after create, delete(1), create, the assigned history is
[1, 2], and a further create assigns id 3, strictly above both and not
previously assigned. -/
theorem C1_id_assignment_witness :
    (∀ a ∈ (execOps [StoreOp.create { title := some "a" }, StoreOp.delete 1,
        StoreOp.create { title := some "b" }]).2, a < 3) ∧
    3 ∉ (execOps [StoreOp.create { title := some "a" }, StoreOp.delete 1,
        StoreOp.create { title := some "b" }]).2 :=
  ((C1_id_assignment [StoreOp.create { title := some "a" }, StoreOp.delete 1,
      StoreOp.create { title := some "b" }]).2.2.1
    (by intro op hop
        rcases hop with _ | ⟨_, hop⟩
        · simp
        · rcases hop with _ | ⟨_, hop⟩
          · simp
          · rcases hop with _ | ⟨_, hop⟩
            · simp
            · cases hop)).2.2
    { title := some "c" }
    { tasks := [{ id := 2, title := "b", description := "", deadline := none,
                  priority := "Low", status := "ToDo" },
                { id := 3, title := "c", description := "", deadline := none,
                  priority := "Low", status := "ToDo" }], nextId := 4 }
    { id := 3, title := "c", description := "", deadline := none,
      priority := "Low", status := "ToDo" } (by decide)

/-- C2: every task created through the controller has priority High,
Medium or Low; a supplied priority among those three is kept, any other
(or an absent) priority yields Low. -/
theorem C2_priority_normalization (repo : TaskRepository) (body : CreateBody)
    (t : Task) (h : (TaskController.createTask repo body).2 = some t) :
    (t.priority = "High" ∨ t.priority = "Medium" ∨ t.priority = "Low") ∧
    ((body.priority = some "High" ∨ body.priority = some "Medium" ∨
        body.priority = some "Low") → body.priority = some t.priority) ∧
    (¬(body.priority = some "High" ∨ body.priority = some "Medium" ∨
        body.priority = some "Low") → t.priority = "Low") := by
  by_cases hf : falsyStr body.title = true
  · simp [TaskController.createTask, hf] at h
  · by_cases hp : body.priority = some "High" ∨ body.priority = some "Medium" ∨
        body.priority = some "Low"
    · have hallow : (body.priority == some "High" || body.priority == some "Medium"
          || body.priority == some "Low") = true := by
        rcases hp with h1 | h1 | h1 <;> simp [h1]
      simp [TaskController.createTask, hf, hallow, TaskRepository.addTask] at h
      subst h
      rcases hp with h1 | h1 | h1 <;> simp [h1]
    · have hallow : (body.priority == some "High" || body.priority == some "Medium"
          || body.priority == some "Low") = false := by
        push_neg at hp
        simp [hp.1, hp.2.1, hp.2.2]
      simp [TaskController.createTask, hf, hallow, TaskRepository.addTask] at h
      subst h
      simp [hp]

/-- C2 witness: creating with priority High keeps High. -/
theorem C2_priority_normalization_witness :
    (("High" : String) = "High" ∨ ("High" : String) = "Medium" ∨
      ("High" : String) = "Low") ∧
    (((some "High" : Option String) = some "High" ∨
        (some "High" : Option String) = some "Medium" ∨
        (some "High" : Option String) = some "Low") →
      (some "High" : Option String) = some "High") ∧
    (¬((some "High" : Option String) = some "High" ∨
        (some "High" : Option String) = some "Medium" ∨
        (some "High" : Option String) = some "Low") →
      ("High" : String) = "Low") :=
  C2_priority_normalization initRepository
    { title := some "t", priority := some "High" }
    { id := 1, title := "t", description := "", deadline := none,
      priority := "High", status := "ToDo" } (by decide)

/-- C3: a create whose title is absent or empty is rejected (no task
record) and leaves the repository exactly as it was. -/
theorem C3_title_required (repo : TaskRepository) (body : CreateBody)
    (h : body.title = none ∨ body.title = some "") :
    TaskController.createTask repo body = (repo, none) := by
  have hf : falsyStr body.title = true := by
    rcases h with h | h <;> simp [falsyStr, h]
  simp [TaskController.createTask, hf]

/-- C3 witness: a body without a title is rejected and the fresh
repository is returned unchanged. -/
theorem C3_title_required_witness :
    TaskController.createTask initRepository { description := some "d" }
      = (initRepository, none) :=
  C3_title_required initRepository { description := some "d" } (Or.inl rfl)

/-- C4: every task created through the controller has status ToDo, even
when the creation payload carries a status field, because the controller
never reads it and addTask overrides status last. -/
theorem C4_status_forced (repo : TaskRepository) (body : CreateBody) (t : Task)
    (h : (TaskController.createTask repo body).2 = some t) :
    t.status = "ToDo" := by
  by_cases hf : falsyStr body.title = true
  · simp [TaskController.createTask, hf] at h
  · simp [TaskController.createTask, hf, TaskRepository.addTask] at h
    subst h
    rfl

/-- C4 witness: a payload supplying status Completed still creates a ToDo
task. -/
theorem C4_status_forced_witness : ("ToDo" : String) = "ToDo" :=
  C4_status_forced initRepository
    { title := some "t", status := some "Completed" }
    { id := 1, title := "t", description := "", deadline := none,
      priority := "Low", status := "ToDo" } (by decide)

/-- C5: updating an existing id replaces exactly the record at its index
with the merge of the old record and the explicitly present fields: the
id is kept, every absent field keeps its old value and every present
field takes the supplied value. -/
theorem C5_update_frame (repo : TaskRepository) (id : Nat) (u : TaskUpdates)
    (i : Nat) (old : Task)
    (hfind : repo.tasks.findIdx? (fun t => t.id == id) = some i)
    (hget : repo.tasks[i]? = some old) :
    repo.updateTask id u =
      ({ repo with tasks := repo.tasks.set i (applyUpdates old u) },
        some (applyUpdates old u)) ∧
    (applyUpdates old u).id = old.id ∧
    (u.title = none → (applyUpdates old u).title = old.title) ∧
    (u.description = none → (applyUpdates old u).description = old.description) ∧
    (u.deadline = none → (applyUpdates old u).deadline = old.deadline) ∧
    (u.priority = none → (applyUpdates old u).priority = old.priority) ∧
    (u.status = none → (applyUpdates old u).status = old.status) ∧
    (∀ v, u.title = some v → (applyUpdates old u).title = v) ∧
    (∀ v, u.description = some v → (applyUpdates old u).description = v) ∧
    (∀ v, u.deadline = some v → (applyUpdates old u).deadline = v) ∧
    (∀ v, u.priority = some v → (applyUpdates old u).priority = v) ∧
    (∀ v, u.status = some v → (applyUpdates old u).status = v) := by
  refine ⟨by simp [TaskRepository.updateTask, hfind, hget], ?_, ?_, ?_, ?_, ?_,
    ?_, ?_, ?_, ?_, ?_, ?_⟩ <;>
    first
      | (intro hx; simp [applyUpdates, hx])
      | (intro v hv; simp [applyUpdates, hv])
      | simp [applyUpdates]

/-- C5 witness: updating task 1 of the sample repository with only title
and description replaces index 0 by the merged record; deadline,
priority and status keep their old values. -/
theorem C5_update_frame_witness :
    TaskRepository.updateTask repoW 1 updW
      = ({ repoW with tasks := repoW.tasks.set 0 (applyUpdates taskW updW) },
          some (applyUpdates taskW updW)) ∧
    (applyUpdates taskW updW).deadline = taskW.deadline ∧
    (applyUpdates taskW updW).priority = taskW.priority ∧
    (applyUpdates taskW updW).status = taskW.status :=
  have h := C5_update_frame repoW 1 updW 0 taskW (by decide) (by decide)
  ⟨h.1, h.2.2.2.2.1 rfl, h.2.2.2.2.2.1 rfl, h.2.2.2.2.2.2.1 rfl⟩

/-- C6: for an id no stored task carries, update, delete and complete all
signal not-found (null, false, null) and return the repository exactly
as it was. -/
theorem C6_not_found (repo : TaskRepository) (id : Nat) (u : TaskUpdates)
    (h : ∀ t ∈ repo.tasks, t.id ≠ id) :
    repo.updateTask id u = (repo, none) ∧
    repo.deleteTask id = (repo, false) ∧
    repo.markCompleted id = (repo, none) := by
  have hfind : repo.tasks.findIdx? (fun t => t.id == id) = none := by
    rw [List.findIdx?_eq_none_iff]
    intro t ht
    simpa using h t ht
  refine ⟨?_, ?_, ?_⟩ <;>
    simp [TaskRepository.updateTask, TaskRepository.deleteTask,
      TaskRepository.markCompleted, hfind]

/-- C6 witness: id 5 is absent from the sample repository, so all three
operations reject and return it unchanged. -/
theorem C6_not_found_witness :
    TaskRepository.updateTask repoW 5 updW = (repoW, none) ∧
    TaskRepository.deleteTask repoW 5 = (repoW, false) ∧
    TaskRepository.markCompleted repoW 5 = (repoW, none) :=
  C6_not_found repoW 5 updW (by decide)

/-- C7: listing with sortBy deadline returns a permutation of the
filtered collection in which no task with a falsy (null/absent) deadline
precedes a task with a real one, and tasks with real deadlines appear in
non-decreasing order of their parsed timestamps — for every abstracted
timestamp function. -/
theorem C7_deadline_sort (parse : String → Int) (repo : TaskRepository)
    (filter : Option String) :
    ((repo.getTasks parse { sortBy := some "deadline", filter := filter }).Perm
      (applyTaskFilter filter repo.tasks)) ∧
    (repo.getTasks parse
        { sortBy := some "deadline", filter := filter }).Pairwise
      (deadlineOrdered parse) := by
  constructor
  · rw [TaskRepository.getTasks, applyTaskSort_deadline]
    exact stableSort_perm _ _
  · rw [TaskRepository.getTasks, applyTaskSort_deadline]
    exact pairwise_stableSort _ _ (deadlineOrdered_trans parse)
      (deadlineLe_true parse) (deadlineLe_false parse) _

/-- C7 witness: the deadline sort of a concrete repository under the
string-length timestamp satisfies both conclusions. -/
theorem C7_deadline_sort_witness :
    ((TaskRepository.getTasks (fun s => (s.length : Int))
        { tasks := [taskW], nextId := 2 }
        { sortBy := some "deadline", filter := none }).Perm
      (applyTaskFilter none [taskW])) ∧
    (TaskRepository.getTasks (fun s => (s.length : Int))
        { tasks := [taskW], nextId := 2 }
        { sortBy := some "deadline", filter := none }).Pairwise
      (deadlineOrdered (fun s => (s.length : Int))) :=
  C7_deadline_sort (fun s => (s.length : Int)) { tasks := [taskW], nextId := 2 }
    none

/-- C8: persisting the collection and initialising a fresh store from
the same storage location reproduces the identical task list — same
length, same order, every field of every task equal. -/
theorem C8_persist_roundtrip (repo : TaskRepository) :
    (TaskRepository.load (some repo.save)).tasks = repo.tasks :=
  load_save_tasks repo

/-- C9 counterexample: the claim says each export block is five lines,
but the block of a concrete task consists of six newline-terminated
lines (ID, Title, Description, Deadline, Priority, Status), not five. -/
theorem C9_counterexample :
    ((taskBlock { id := 1, title := "a", description := "",
                  deadline := none, priority := "Low",
                  status := "ToDo" }).toList.count '\n') = 6 ∧
    (6 : Nat) ≠ 5 := by
  refine ⟨by decide, by decide⟩

/-- C9 (amended): the export text is one block per task over the full
unfiltered, unsorted collection in store order, blocks joined by a
newline — each block already ends with one, so blocks are separated by a
blank line — and each block is six lines in the fixed order ID, Title,
Description, Deadline, Priority, Status. -/
theorem C9_export_format (parse : String → Int) (repo : TaskRepository) :
    TaskController.exportTasks parse repo
      = String.intercalate "\n" (repo.tasks.map taskBlock) ∧
    ∀ t : Task, taskBlock t
      = String.intercalate "\n" [idLine t, titleLine t, descriptionLine t,
          deadlineLine t, priorityLine t, statusLine t] ++ "\n" := by
  constructor
  · rw [TaskController.exportTasks, getTasks_default]
  · exact block_lines

/-- C10: for every collection — the empty store included — create
appends the new task at the end; and whenever the id is present (found
at index i holding the record old), update rewrites only that index and
keeps every other position, while delete removes exactly the task at
that index (whose id matches) and keeps the remaining tasks in their
relative order. -/
theorem C10_mutation_positions (repo : TaskRepository) (d : AddData)
    (id : Nat) (u : TaskUpdates) :
    (repo.addTask d).1.tasks = repo.tasks ++ [(repo.addTask d).2] ∧
    ∀ i old,
      repo.tasks.findIdx? (fun t => t.id == id) = some i →
      repo.tasks[i]? = some old →
      old.id = id ∧
      (repo.updateTask id u).1.tasks = repo.tasks.set i (applyUpdates old u) ∧
      (repo.updateTask id u).1.tasks.length = repo.tasks.length ∧
      (∀ j, j ≠ i → (repo.updateTask id u).1.tasks[j]? = repo.tasks[j]?) ∧
      (repo.updateTask id u).1.tasks[i]? = some (applyUpdates old u) ∧
      repo.tasks = repo.tasks.take i ++ old :: repo.tasks.drop (i + 1) ∧
      (repo.deleteTask id).1.tasks
        = repo.tasks.take i ++ repo.tasks.drop (i + 1) ∧
      (repo.deleteTask id).1.tasks.Sublist repo.tasks := by
  refine ⟨by simp [TaskRepository.addTask], ?_⟩
  intro i old hfind hget
  have hi : i < repo.tasks.length := by
    rcases List.findIdx?_eq_some_iff_getElem.mp hfind with ⟨h1, _, _⟩
    exact h1
  have hold : repo.tasks[i] = old := by
    have := List.getElem?_eq_getElem hi
    rw [this] at hget
    exact (Option.some.inj hget)
  have holdid : old.id = id := by
    rcases List.findIdx?_eq_some_iff_getElem.mp hfind with ⟨h1, h2, _⟩
    rw [hold] at h2
    simpa using h2
  refine ⟨holdid, ?_, ?_, ?_, ?_, ?_, ?_, ?_⟩
  · simp [TaskRepository.updateTask, hfind, hget]
  · simp [TaskRepository.updateTask, hfind, hget]
  · intro j hj
    simp [TaskRepository.updateTask, hfind, hget, List.getElem?_set_ne (Ne.symm hj)]
  · simp [TaskRepository.updateTask, hfind, hget, List.getElem?_set_self, hi]
  · conv_lhs => rw [← List.take_append_drop i repo.tasks]
    rw [List.drop_eq_getElem_cons hi, hold]
  · simp [TaskRepository.deleteTask, hfind, List.eraseIdx_eq_take_drop_succ]
  · simp [TaskRepository.deleteTask, hfind, List.eraseIdx_sublist]

/-- C10 witness: the very first create on the empty initial store appends
its task at the end, and deleting id 1 from the sample repository erases
index 0 keeping the rest. -/
theorem C10_mutation_positions_witness :
    (TaskRepository.addTask initRepository dataW).1.tasks
      = initRepository.tasks ++ [(TaskRepository.addTask initRepository dataW).2] ∧
    (TaskRepository.deleteTask repoW 1).1.tasks
      = repoW.tasks.take 0 ++ repoW.tasks.drop 1 :=
  ⟨(C10_mutation_positions initRepository dataW 1 updW).1,
    ((C10_mutation_positions repoW dataW 1 updW).2 0 taskW
      (by decide) (by decide)).2.2.2.2.2.2.1⟩

end TaskManager
